import Mathlib

/-!
Verification of the course-workload estimation pipeline (streamlit_app.py).

The Python source is shallowly embedded: floats are modeled as exact
rationals, Python round(x, 2) as round-half-to-even at two decimals on
rationals, byte strings as lists of naturals, parsed HTML (the
BeautifulSoup tree) as an inductive node tree, and fallible network or
library calls as Except / Option values supplied per item by an oracle.
String manipulation is carried out on character lists by structural
recursion so that every definition evaluates inside the kernel.
-/

namespace CourseLoad

/-! ## Rounding: Python round(x, 2) on exact rationals -/

/-- Round a rational to the nearest integer, ties to even (the rounding
used by Python round; float representation artifacts are not modeled). -/
def roundHalfEven (q : ℚ) : ℤ :=
  let n := ⌊q⌋
  let frac := q - (n : ℚ)
  if frac < 1/2 then n
  else if 1/2 < frac then n + 1
  else if n % 2 = 0 then n else n + 1

/-- Python round(x, 2), modeled exactly on rationals. -/
def round2 (q : ℚ) : ℚ :=
  (roundHalfEven (q * 100) : ℚ) / 100

/-! ## Character and string helpers -/

/-- Python whitespace as stripped by str.strip (ASCII range). -/
def isPyWs (c : Char) : Bool :=
  c == ' ' || c == '\t' || c == '\n' || c == '\r' || c == '\x0b' || c == '\x0c'

/-- Python str.strip on a character list. -/
def trimChars (l : List Char) : List Char :=
  ((l.dropWhile isPyWs).reverse.dropWhile isPyWs).reverse

/-- Python str.split(sep) for a one-character separator. -/
def splitOnChar (c : Char) : List Char → List (List Char)
  | [] => [[]]
  | a :: rest =>
    let r := splitOnChar c rest
    if a == c then [] :: r
    else
      match r with
      | [] => [[a]]
      | g :: gs => (a :: g) :: gs

/-- ASCII lower-casing of one character (Python str.lower restricted to
ASCII, which covers every string compared case-insensitively here). -/
def lowerChar (c : Char) : Char :=
  if 'A' ≤ c && c ≤ 'Z' then Char.ofNat (c.toNat + 32) else c

/-- ASCII lower-casing of a string. -/
def lowerStr (s : String) : String :=
  String.mk (s.toList.map lowerChar)

/-- Whether pat occurs at the start of l (character lists). -/
def startsWithList : List Char → List Char → Bool
  | [], _ => true
  | _ :: _, [] => false
  | a :: as, b :: bs => a == b && startsWithList as bs

/-- Python substring containment: pat in s. -/
def strContains (s pat : String) : Bool :=
  let sl := s.toList
  let pl := pat.toList
  (List.range (sl.length + 1)).any fun i => startsWithList pl (sl.drop i)

/-- Numeric value of a digit list. -/
def digitsToNat (l : List Char) : Nat :=
  l.foldl (fun acc c => acc * 10 + (c.toNat - 48)) 0

/-- Python int(s) on ASCII inputs: surrounding whitespace, an optional
sign, then decimal digits.  (CPython additionally accepts underscores
between digits and non-ASCII digits; no input below uses those.) -/
def pyIntChars? (l0 : List Char) : Option Int :=
  let t := trimChars l0
  let (sign, digits) :=
    match t with
    | '-' :: rest => ((-1 : Int), rest)
    | '+' :: rest => ((1 : Int), rest)
    | l => ((1 : Int), l)
  if digits.isEmpty then none
  else if digits.all Char.isDigit then some (sign * (digitsToNat digits : Int))
  else none

/-! ## hhmmss_to_seconds (source lines 498-506) -/

/-- Embedding of hhmmss_to_seconds: strip, split on the colon, require
exactly three integer fields, clamp the total at zero.  Any parse
failure (the except branch of the source) yields 0.  The embedding is a
total function, matching the fact that the Python function never raises
on a string argument. -/
def hhmmss_to_seconds (hhmmss : String) : Int :=
  let parts := splitOnChar ':' (trimChars hhmmss.toList)
  match parts with
  | [hs, ms, ss] =>
    match pyIntChars? hs, pyIntChars? ms, pyIntChars? ss with
    | some h, some m, some s => max 0 (h * 3600 + m * 60 + s)
    | _, _, _ => 0
  | _ => 0

/-! ## PendingVideo and the save step (source lines 803-817) -/

structure PendingVideo where
  title : String
  src : String
  hhmmss : String
  seconds : Int
  item_key : String
deriving DecidableEq, Repr

/-- Embedding of the Save button handler for one pending video: parse
the duration, reject a non-positive result, otherwise store the string
and the seconds. -/
def saveVideoDuration (hhmmss : String) (meta : PendingVideo) : Option PendingVideo :=
  let sec := hhmmss_to_seconds hhmmss
  if sec ≤ 0 then none
  else some { meta with hhmmss := hhmmss, seconds := sec }

/-! ## HTML: the parsed BeautifulSoup tree

The external HTML parser is modeled as the identity on an already
parsed document: a list of nodes, each an element with a tag name,
attributes and children, or a text node.  An empty document stands for
the empty or missing body string. -/

inductive Node where
  | element (tag : String) (attrs : List (String × String)) (children : List Node)
  | text (s : String)

abbrev Html := List Node

/-- Tag name of a node; text nodes have none. -/
def tagOf : Node → Option String
  | .element t _ _ => some t
  | .text _ => none

/-- Attribute lookup (tag.get(name) in BeautifulSoup). -/
def attr? : Node → String → Option String
  | .element _ attrs _, name => (attrs.find? fun p => p.1 == name).map (·.2)
  | .text _, _ => none

mutual

/-- All nodes of one subtree in document (preorder) order. -/
def allNodesN : Node → List Node
  | .text s => [.text s]
  | .element t a c => .element t a c :: allNodesL c

/-- All nodes of a forest in document order. -/
def allNodesL : List Node → List Node
  | [] => []
  | n :: rest => allNodesN n ++ allNodesL rest

end

/-- soup.find_all(pred): every matching node in document order. -/
def findAllHtml (p : Node → Bool) (h : Html) : List Node :=
  (allNodesL h).filter p

mutual

/-- All text-node strings of one subtree in document order
(the .strings traversal of BeautifulSoup). -/
def textsN : Node → List String
  | .text s => [s]
  | .element _ _ c => textsL c

/-- All text-node strings of a forest in document order. -/
def textsL : List Node → List String
  | [] => []
  | n :: rest => textsN n ++ textsL rest

end

mutual

/-- Drop script and style elements with their entire subtrees
(tag.decompose() in strip_html_to_text). -/
def scrubN : Node → Option Node
  | .text s => some (.text s)
  | .element t a c =>
    if t == "script" || t == "style" then none
    else some (.element t a (scrubL c))

/-- Drop script and style elements throughout a forest. -/
def scrubL : List Node → List Node
  | [] => []
  | n :: rest =>
    match scrubN n with
    | some n2 => n2 :: scrubL rest
    | none => scrubL rest

end

/-- Map every whitespace character to a plain space. -/
def wsToSpace (l : List Char) : List Char :=
  l.map fun c => if isPyWs c then ' ' else c

/-- Collapse runs of spaces to one space (together with wsToSpace this
is re.sub of one or more whitespace characters by a single space). -/
def squeezeSpaces : List Char → List Char
  | [] => []
  | [c] => [c]
  | a :: b :: rest =>
    if a == ' ' && b == ' ' then squeezeSpaces (b :: rest)
    else a :: squeezeSpaces (b :: rest)

/-- Embedding of strip_html_to_text (source lines 155-161): drop
script/style subtrees, join all text nodes with single spaces
(get_text with a space separator), collapse whitespace and strip. -/
def strip_html_to_text (h : Html) : String :=
  let joined := String.intercalate " " (textsL (scrubL h))
  String.mk (trimChars (squeezeSpaces (wsToSpace joined.toList)))

/-- Word characters of the regex word class, ASCII range. -/
def isWordChar (c : Char) : Bool :=
  c.isAlphanum || c == '_'

/-- Count maximal runs of word characters; inWord records whether the
previous character was one. -/
def countWordRuns : List Char → Bool → Nat
  | [], _ => 0
  | c :: rest, inWord =>
    let w := isWordChar c
    (if w && !inWord then 1 else 0) + countWordRuns rest w

/-- Embedding of words_from_text (source lines 164-167): the number of
word-character runs of the text. -/
def words_from_text (t : String) : Nat :=
  if t == "" then 0 else countWordRuns t.toList false

/-! ## detect_videos_from_html (source lines 170-192) -/

structure Video where
  src : String
  title : String
deriving DecidableEq, Repr

/-- The fixed video-host substrings checked on hyperlink targets. -/
def videoDomains : List String :=
  ["youtube.com", "youtu.be", "vimeo.com", "echo360", "panopto", "kaltura"]

/-- Python a or b for strings: b when a is missing or empty. -/
def orNonempty (a : Option String) (b : String) : String :=
  match a with
  | some s => if s == "" then b else s
  | none => b

/-- src of an embed-style tag: src, else data-src, else empty. -/
def effSrc (n : Node) : String :=
  orNonempty (attr? n "src") (orNonempty (attr? n "data-src") "")

/-- Title of an embed-style tag: title, else aria-label, else the
fixed label. -/
def embedTitle (n : Node) : String :=
  orNonempty (attr? n "title") (orNonempty (attr? n "aria-label") "Embedded Video")

/-- get_text(strip=True): each text string stripped, empties dropped,
the rest concatenated. -/
def getTextStrip (n : Node) : String :=
  String.join (((textsN n).map fun s => String.mk (trimChars s.toList)).filter fun s => s ≠ "")

/-- Title of a matched hyperlink. -/
def linkTitle (n : Node) : String :=
  let t := getTextStrip n
  if t == "" then "Linked Video" else t

/-- Whether a node is an iframe, video or embed element. -/
def isEmbedTag (n : Node) : Bool :=
  match tagOf n with
  | some t => t == "iframe" || t == "video" || t == "embed"
  | none => false

/-- Whether a node is an anchor carrying an href attribute. -/
def isHrefAnchor (n : Node) : Bool :=
  tagOf n == some "a" && (attr? n "href").isSome

/-- Embedding of detect_videos_from_html: every iframe/video/embed tag
with a non-empty src or data-src is reported unconditionally; a
hyperlink is reported exactly when its href contains one of the fixed
video-domain substrings.  Results keep document order, embeds first. -/
def detect_videos_from_html (h : Html) : List Video :=
  if h.isEmpty then []
  else
    let embeds := (findAllHtml isEmbedTag h).filterMap fun n =>
      let src := effSrc n
      if src == "" then none
      else some (Video.mk src (embedTitle n))
    let links := (findAllHtml isHrefAnchor h).filterMap fun n =>
      match attr? n "href" with
      | some href =>
        if videoDomains.any (fun dom => strContains href dom) then
          some (Video.mk href (linkTitle n))
        else none
      | none => none
    embeds ++ links

/-- A detection the amended C9 attributes to an embed-style tag. -/
def isEmbedHit (n : Node) (v : Video) : Prop :=
  isEmbedTag n = true ∧ effSrc n ≠ "" ∧ v = Video.mk (effSrc n) (embedTitle n)

/-- A detection the amended C9 attributes to a hyperlink. -/
def isLinkHit (n : Node) (v : Video) : Prop :=
  ∃ href, tagOf n = some "a" ∧ attr? n "href" = some href ∧
    (videoDomains.any fun dom => strContains href dom) = true ∧
    v = Video.mk href (linkTitle n)

/-! ## extract_file_text (source lines 195-244) -/

/-- The configured payload cap (25 MB). -/
def MAX_FILE_BYTES : Nat := 25 * 1024 * 1024

/-- Whether a byte is a UTF-8 continuation byte. -/
def isContByte (b : Nat) : Bool :=
  0x80 ≤ b && b ≤ 0xBF

/-- Allowed range of the second byte of a multi-byte sequence, which
depends on the leading byte (excludes overlong forms, surrogates and
codepoints past 0x10FFFF). -/
def validSecondByte (b b2 : Nat) : Bool :=
  if b == 0xE0 then 0xA0 ≤ b2 && b2 ≤ 0xBF
  else if b == 0xED then 0x80 ≤ b2 && b2 ≤ 0x9F
  else if b == 0xF0 then 0x90 ≤ b2 && b2 ≤ 0xBF
  else if b == 0xF4 then 0x80 ≤ b2 && b2 ≤ 0x8F
  else isContByte b2

/-- One decoding step at a leading byte: the decoded character (none
when the byte starts no valid sequence) and the bytes still to decode. -/
def utf8Step (b : Nat) (rest : List Nat) : Option Char × List Nat :=
  if b < 0x80 then (some (Char.ofNat b), rest)
  else if 0xC2 ≤ b && b ≤ 0xDF then
    match rest with
    | b2 :: rest2 =>
      if isContByte b2 then (some (Char.ofNat ((b - 0xC0) * 0x40 + (b2 - 0x80))), rest2)
      else (none, rest)
    | [] => (none, [])
  else if 0xE0 ≤ b && b ≤ 0xEF then
    match rest with
    | b2 :: b3 :: rest3 =>
      if validSecondByte b b2 && isContByte b3 then
        (some (Char.ofNat ((b - 0xE0) * 0x1000 + (b2 - 0x80) * 0x40 + (b3 - 0x80))), rest3)
      else (none, rest)
    | _ => (none, rest)
  else if 0xF0 ≤ b && b ≤ 0xF4 then
    match rest with
    | b2 :: b3 :: b4 :: rest4 =>
      if validSecondByte b b2 && isContByte b3 && isContByte b4 then
        (some (Char.ofNat ((b - 0xF0) * 0x40000 + (b2 - 0x80) * 0x1000 +
            (b3 - 0x80) * 0x40 + (b4 - 0x80))), rest4)
      else (none, rest)
    | _ => (none, rest)
  else (none, rest)

/-- bytes.decode with UTF-8 and errors ignored: decode valid sequences,
skip invalid bytes.  (CPython may skip a longer invalid prefix at once;
no statement below depends on the error path.) -/
def utf8DecodeIgnore : List Nat → List Char
  | [] => []
  | b :: rest =>
    (match (utf8Step b rest).1 with
      | some c => [c]
      | none => []) ++ utf8DecodeIgnore (utf8Step b rest).2
termination_by l => l.length
decreasing_by
simp only [List.length_cons]
have hle : (utf8Step b rest).2.length ≤ rest.length := by
  unfold utf8Step
  repeat' split
  all_goals simp_all [List.length_cons]
  all_goals omega
omega

/-- The three optional document libraries.  A none result stands both
for a library that is not installed and for a call that raised; either
way the source falls through to the next candidate format. -/
structure Libs where
  pdfExtract : List Nat → Option String
  docxParagraphs : List Nat → Option (List String)
  pptxSlideCount : List Nat → Option Nat

/-- Number of form-feed characters in a string (the page count read off
an extracted PDF text). -/
def countFormFeeds (t : String) : Nat :=
  (t.toList.filter fun c => c == '\x0c').length

/-- Embedding of extract_file_text.  The download result is supplied by
the oracle; a failing download (raise_for_status or a network error)
propagates as an error since the source does not catch it here.  The
payload is cut to the first maxBytes bytes and extraction proceeds on
that prefix; content-type dispatch and the library fallbacks follow the
source.  Returns (text, pages). -/
def extract_file_text (libs : Libs) (download : Except Unit (List Nat))
    (fileUrl contentType : String) (maxBytes : Nat) : Except Unit (String × Nat) :=
  if fileUrl == "" then .ok ("", 0)
  else
    match download with
    | .error e => .error e
    | .ok payload =>
      let data := payload.take maxBytes
      let ctl := lowerStr contentType
      let pdfTry : Option (String × Nat) :=
        if strContains ctl "pdf" then
          (libs.pdfExtract data).map fun t => (t, countFormFeeds t)
        else none
      match pdfTry with
      | some r => .ok r
      | none =>
        let docxTry : Option (String × Nat) :=
          if strContains ctl "word" || strContains ctl "docx" then
            (libs.docxParagraphs data).map fun ps => (String.intercalate "\n" ps, 0)
          else none
        match docxTry with
        | some r => .ok r
        | none =>
          let pptxTry : Option (String × Nat) :=
            if strContains ctl "powerpoint" || strContains ctl "pptx" then
              (libs.pptxSlideCount data).map fun n => ("", n)
            else none
          match pptxTry with
          | some r => .ok r
          | none => .ok (String.mk (utf8DecodeIgnore data), 0)

/-! ## Difficulty and time estimation (source lines 252-490) -/

/-- The difficulty dictionary.  wpm_factor is optional because the
dictionary access defaults a missing key to 1.0; work_rationale is the
key added when an LLM task estimate succeeds. -/
structure Difficulty where
  label : String
  wpm_factor : Option ℚ
  notes : String
  work_rationale : Option String := none
deriving DecidableEq, Repr

/-- Embedding of default_difficulty. -/
def default_difficulty : Difficulty :=
  { label := "average", wpm_factor := some 1, notes := "default difficulty (no LLM)" }

/-- The wpm factor actually used: a missing key defaults to 1.0, and
the Python or also maps a 0.0 factor to 1.0. -/
def effectiveFactor (d : Difficulty) : ℚ :=
  match d.wpm_factor with
  | none => 1
  | some f => if f = 0 then 1 else f

/-- Embedding of reading_minutes (source lines 260-263): words divided
by the floored words-per-minute rate.  There is no re-reading
multiplier in the source. -/
def reading_minutes (words : Nat) (base_wpm : ℚ) (difficulty : Difficulty) : ℚ :=
  let wpm := max 80 (base_wpm * effectiveFactor difficulty)
  (words : ℚ) / wpm

/-- The structured result of an LLM task-time estimate. -/
structure TaskOut where
  do_minutes : ℚ
  rationale : String
deriving DecidableEq, Repr

/-- Embedding of heuristic_task_time (source lines 448-471). -/
def heuristic_task_time (words : Nat) (item_type level : String) : ℚ :=
  let lvl_factor : ℚ := if (lowerStr level).startsWith "under" then 1 else 5/4
  let it := lowerStr item_type
  if it == "assignment" then
    (if words < 150 then 30 else if words < 600 then 60 else 120) * lvl_factor
  else if it == "discussion" then 35 * lvl_factor
  else 0

/-- The content_details dictionary of a module item, as far as the
source reads it.  none for the whole record stands for a missing or
empty (falsy) dictionary. -/
structure ContentDetails where
  url : Option String := none
  content_type : Option String := none
  time_limit : Option ℚ := none
  question_count : Option Int := none
  questions : Option Int := none
deriving DecidableEq, Repr

/-- Python truthiness filter on an optional number: 0 is falsy. -/
def ratTruthy (o : Option ℚ) : Option ℚ :=
  match o with
  | some q => if q = 0 then none else some q
  | none => none

/-- Python truthiness filter on an optional integer: 0 is falsy. -/
def intTruthy (o : Option Int) : Option Int :=
  match o with
  | some n => if n = 0 then none else some n
  | none => none

/-- Embedding of estimate_quiz_time (source lines 474-490): an explicit
time limit wins, otherwise two minutes per question with a floor of
five, defaulting the question count to five. -/
def estimate_quiz_time (meta : Option ContentDetails) : ℚ :=
  match meta with
  | none => 10
  | some m =>
    match ratTruthy m.time_limit with
    | some t => t
    | none =>
      let qcount := ((intTruthy m.question_count).orElse fun _ => intTruthy m.questions).getD 5
      max 5 ((qcount : ℚ) * 2)

/-! ## Per-item processing (main, source lines 600-794) -/

/-- One module item as produced by the course scan. -/
structure Item where
  module_name : String
  position : Int
  item_type : String
  title : String
  html_url : String
  content_id : Option Int := none
  page_url : Option String := none
  content_details : Option ContentDetails := none
  item_key : String
deriving DecidableEq, Repr

/-- Per-item oracle: what the network and the LLM return for this item.
An error stands for any exception out of the call (an HTTP error
status, a timeout, a missing SDK).  The LLM difficulty and task fields
describe the outcome of the azure call as caught by the caller. -/
structure Fetched where
  pageBody : Except Unit Html := .error ()
  assignmentDesc : Except Unit Html := .error ()
  discussionMsg : Except Unit Html := .error ()
  fileDownload : Except Unit (List Nat) := .error ()
  llmDifficulty : Except Unit Difficulty := .error ()
  llmTask : Except Unit TaskOut := .error ()
  quizRefine : Except Unit TaskOut := .error ()

/-- The processing configuration drawn from the sidebar and secrets. -/
structure Config where
  use_llm : Bool
  base_wpm : ℚ
  level : String
  libs : Libs

/-- One computed workload row (the dictionary appended to results at
source lines 776-790). -/
structure EstimateRecord where
  module : String
  module_position : Int
  title : String
  type : String
  url : String
  item_key : String
  read_min : ℚ
  watch_min : ℚ
  do_min : ℚ
  total_min : ℚ
  difficulty : Difficulty
deriving DecidableEq, Repr

/-- Source lines 775-790: the record built from the raw minutes; each
stored component is rounded to two decimals and total_min is the
rounding of the unrounded sum. -/
def mkRecord (it : Item) (read_min watch_min do_min : ℚ) (difficulty : Difficulty) :
    EstimateRecord :=
  let total := read_min + watch_min + do_min
  { module := it.module_name
    module_position := it.position
    title := it.title
    type := it.item_type
    url := it.html_url
    item_key := it.item_key
    read_min := round2 read_min
    watch_min := round2 watch_min
    do_min := round2 do_min
    total_min := round2 total
    difficulty := difficulty }

/-- The domain substrings checked on an external-link URL (note: a
different list from videoDomains, with youtube rather than
youtube.com). -/
def externalDomains : List String :=
  ["youtube", "youtu.be", "vimeo", "echo360", "panopto", "kaltura"]

/-- Pending-video entries created for the videos detected in a body,
keyed item_key::embed::idx with idx starting at 1. -/
def embedPendings (item_key : String) (vids : List Video) : List (String × PendingVideo) :=
  (List.range vids.length).zip vids |>.map fun p =>
    (item_key ++ "::embed::" ++ toString (p.1 + 1),
     { title := p.2.title, src := p.2.src, hhmmss := "00:00:00", seconds := 0,
       item_key := item_key })

/-- Embedding of one iteration of the processing loop (source lines
610-790).  Page, Assignment and Discussion fetch failures are caught
and leave an empty body; a Quiz refinement failure is caught and keeps
the heuristic estimate; a File download failure is NOT caught by the
source and therefore propagates as an error. -/
def processItem (cfg : Config) (it : Item) (f : Fetched) :
    Except Unit (EstimateRecord × List (String × PendingVideo)) :=
  if it.item_type = "Page" ∨ it.item_type = "Assignment" ∨ it.item_type = "Discussion" then
    let fetchRes : Except Unit Html :=
      if it.item_type = "Page" then f.pageBody
      else if it.item_type = "Assignment" then f.assignmentDesc
      else f.discussionMsg
    let body : Html :=
      match fetchRes with
      | .ok b => b
      | .error _ => []
    let text := strip_html_to_text body
    let vids := detect_videos_from_html body
    let pend := embedPendings it.item_key vids
    let words := words_from_text text
    let difficulty : Difficulty :=
      if words > 0 ∧ cfg.use_llm then
        match f.llmDifficulty with
        | .ok d => d
        | .error _ => default_difficulty
      else default_difficulty
    let read_min : ℚ := if words > 0 then reading_minutes words cfg.base_wpm difficulty else 0
    let doPair : ℚ × Difficulty :=
      if (it.item_type = "Assignment" ∨ it.item_type = "Discussion") ∧ words > 0 then
        if cfg.use_llm then
          match f.llmTask with
          | .ok task => (task.do_minutes, { difficulty with work_rationale := some task.rationale })
          | .error _ => (heuristic_task_time words it.item_type cfg.level, difficulty)
        else (heuristic_task_time words it.item_type cfg.level, difficulty)
      else (0, difficulty)
    .ok (mkRecord it read_min 0 doPair.1 doPair.2, pend)
  else if it.item_type = "File" then
    let fileUrl := ((it.content_details.bind fun cd => cd.url).getD "")
    if fileUrl = "" then .ok (mkRecord it 0 0 0 default_difficulty, [])
    else
      let ct := ((it.content_details.bind fun cd => cd.content_type).getD "")
      match extract_file_text cfg.libs f.fileDownload fileUrl ct MAX_FILE_BYTES with
      | .error e => .error e
      | .ok (text, pages) =>
        let words := words_from_text text
        if words > 0 then
          let difficulty : Difficulty :=
            if cfg.use_llm then
              match f.llmDifficulty with
              | .ok d => d
              | .error _ => default_difficulty
            else default_difficulty
          .ok (mkRecord it (reading_minutes words cfg.base_wpm difficulty) 0 0 difficulty, [])
        else
          let mp : ℚ := if strContains (lowerStr ct) "presentation" then 2 else 7/2
          .ok (mkRecord it ((pages : ℚ) * mp) 0 0 default_difficulty, [])
  else if it.item_type = "Quiz" then
    let baseDo := estimate_quiz_time it.content_details
    let doPair : ℚ × Difficulty :=
      if cfg.use_llm && (intTruthy it.content_id).isSome then
        match f.quizRefine with
        | .ok task => (task.do_minutes, { default_difficulty with work_rationale := some task.rationale })
        | .error _ => (baseDo, default_difficulty)
      else (baseDo, default_difficulty)
    .ok (mkRecord it 0 0 doPair.1 doPair.2, [])
  else
    let pend :=
      if externalDomains.any fun dom => strContains it.html_url dom then
        [((it.item_key ++ "::external",
          { title := if it.title == "" then "External Video" else it.title,
            src := it.html_url, hhmmss := "00:00:00", seconds := 0,
            item_key := it.item_key }) : String × PendingVideo)]
      else []
    .ok (mkRecord it 0 0 0 default_difficulty, pend)

/-- The whole processing pass: an uncaught error in any item aborts the
run (nothing is stored), exactly as an uncaught exception leaves the
Streamlit handler. -/
def processItems (cfg : Config) :
    List (Item × Fetched) → Except Unit (List EstimateRecord × List (String × PendingVideo))
  | [] => .ok ([], [])
  | (it, f) :: rest =>
    match processItem cfg it f with
    | .error e => .error e
    | .ok (r, pv) =>
      match processItems cfg rest with
      | .error e => .error e
      | .ok (rs, pvs) => .ok (r :: rs, pv ++ pvs)

/-- The upstream fetch for an item of the three body-carrying types
failed (the situation handled by the try/except at source lines
624-635). -/
def fetchFailed (it : Item) (f : Fetched) : Prop :=
  (it.item_type = "Page" ∧ f.pageBody = .error ()) ∨
  (it.item_type = "Assignment" ∧ f.assignmentDesc = .error ()) ∨
  (it.item_type = "Discussion" ∧ f.discussionMsg = .error ())

/-! ## Video-duration reconciliation (source lines 819-832) -/

/-- Total saved seconds per item key; an empty key is skipped when the
per-item dictionary is built. -/
def itemSeconds (pending : List PendingVideo) (ik : String) : Int :=
  pending.foldl (fun acc m => if m.item_key ≠ "" ∧ m.item_key = ik then acc + m.seconds else acc) 0

/-- Recompute one record from the saved durations: watch_min becomes
the rounded minutes of the summed seconds and total_min is re-derived
from the three stored (rounded) components. -/
def reconcileRecord (pending : List PendingVideo) (r : EstimateRecord) : EstimateRecord :=
  let secTotal := itemSeconds pending r.item_key
  let r1 := { r with watch_min := round2 ((secTotal : ℚ) / 60) }
  { r1 with total_min := round2 (r1.read_min + r1.watch_min + r1.do_min) }

/-- The recompute loop runs only when some pending videos exist. -/
def reconcileResults (pending : List PendingVideo) (results : List EstimateRecord) :
    List EstimateRecord :=
  if pending.isEmpty then results
  else results.map (reconcileRecord pending)

/-! ## Module rollup (source lines 850-889) -/

/-- One row of the per-module summary table. -/
structure RollupRow where
  module : String
  module_position : Int
  read_min : ℚ
  watch_min : ℚ
  do_min : ℚ
  total_min : ℚ
deriving DecidableEq, Repr

/-- Distinct keys in order of first occurrence. -/
def firstKeysAux : List (String × Int) → List (String × Int) → List (String × Int)
  | [], _ => []
  | k :: rest, seen =>
    if k ∈ seen then firstKeysAux rest seen
    else k :: firstKeysAux rest (k :: seen)

/-- Keys of the groupby on the (module, module_position) pair.  The
pandas groupby pre-sorts its keys lexicographically and the later
sort_values is an unstable quicksort; this embedding keeps keys in
first-occurrence order and sorts stably, so the relative order of rows
with EQUAL positions is not asserted by any theorem below. -/
def groupKeys (rs : List EstimateRecord) : List (String × Int) :=
  firstKeysAux (rs.map fun r => (r.module, r.module_position)) []

/-- The summed row of one (module, position) group. -/
def groupRow (rs : List EstimateRecord) (k : String × Int) : RollupRow :=
  let grp := rs.filter fun r => r.module == k.1 && r.module_position == k.2
  { module := k.1
    module_position := k.2
    read_min := (grp.map (·.read_min)).sum
    watch_min := (grp.map (·.watch_min)).sum
    do_min := (grp.map (·.do_min)).sum
    total_min := (grp.map (·.total_min)).sum }

/-- Row order of the summary: ascending module_position. -/
def rowLE (a b : RollupRow) : Prop :=
  a.module_position ≤ b.module_position

instance rowLEDec : DecidableRel rowLE := fun _ _ => Int.decLe _ _

instance rowLETotal : IsTotal RollupRow rowLE :=
  ⟨fun a b => Int.le_total a.module_position b.module_position⟩

instance rowLETrans : IsTrans RollupRow rowLE :=
  ⟨fun _ _ _ hab hbc => le_trans hab hbc⟩

/-- mod_summary (source lines 866-871): group by the (module, position)
pair, sum the four minute columns, sort by position. -/
def mod_summary (rs : List EstimateRecord) : List RollupRow :=
  ((groupKeys rs).map (groupRow rs)).insertionSort rowLE

/-- The synthetic Grand Total row (source lines 874-881): sums of the
summary rows, positioned after the maximal position (9999 for an empty
summary). -/
def grandTotalRow (ms : List RollupRow) : RollupRow :=
  { module := "Grand Total"
    module_position := match (ms.map (·.module_position)).max? with
                       | some m => m + 1
                       | none => 9999
    read_min := (ms.map (·.read_min)).sum
    watch_min := (ms.map (·.watch_min)).sum
    do_min := (ms.map (·.do_min)).sum
    total_min := (ms.map (·.total_min)).sum }

/-- The displayed rollup: the sorted per-module rows with the Grand
Total row concatenated last (source lines 883-886). -/
def rollup (rs : List EstimateRecord) : List RollupRow :=
  let ms := mod_summary rs
  ms ++ [grandTotalRow ms]

/-- One rendering pass over the summary section: reconcile the saved
video durations into the records, then roll up.  Returns the table and
the updated session state. -/
def summaryStep (pending : List PendingVideo) (results : List EstimateRecord) :
    List RollupRow × List EstimateRecord :=
  let results2 := reconcileResults pending results
  (rollup results2, results2)

/-! ## canvas_get pagination (source lines 64-84) -/

/-- A JSON payload: the list case is extended into the accumulator, any
other value is appended as a single element. -/
inductive JsonData (α : Type) where
  | arr (xs : List α)
  | single (x : α)
deriving DecidableEq

def JsonData.toList {α : Type} : JsonData α → List α
  | .arr xs => xs
  | .single x => [x]

/-- One HTTP response: its JSON payload and its Link header. -/
structure PageResp (α : Type) where
  data : JsonData α
  linkHeader : String

/-- Leftmost match of the angle-bracket regex of the source: the first
position with a non-empty bracket-free run terminated by a closing
angle bracket. -/
def findAngle : List Char → Option (List Char)
  | [] => none
  | c :: rest =>
    if c == '<' then
      let content := rest.takeWhile fun d => d ≠ '>'
      if content.length ≠ 0 ∧ content.length < rest.length then some content
      else findAngle rest
    else findAngle rest

/-- Parsing of the Link header (source lines 75-81): split on commas,
and for each part carrying the next relation whose bracket match
succeeds, overwrite the candidate, so the last such part wins. -/
def parseNextUrl (link : String) : Option String :=
  (splitOnChar ',' link.toList).foldl
    (fun acc part =>
      if strContains (String.mk part) "rel=\"next\"" then
        match findAngle part with
        | some u => some (String.mk u)
        | none => acc
      else acc)
    none

/-- Embedding of canvas_get over a server oracle.  The source loops
while a next URL exists; the fuel argument makes the model total and is
irrelevant whenever it at least reaches the chain length (an infinite
chain would make the source loop forever).  Params are sent only with
the first request.  Returns the accumulated data and the number of
requests performed. -/
def canvas_get {α P : Type} (fetch : String → Option P → PageResp α) :
    Nat → String → Option P → List α × Nat
  | 0, _, _ => ([], 0)
  | fuel + 1, url, params =>
    let r := fetch url params
    let out := r.data.toList
    match parseNextUrl r.linkHeader with
    | some nxt =>
      let rec2 := canvas_get fetch fuel nxt none
      (out ++ rec2.1, 1 + rec2.2)
    | none => (out, 1)

/-- A rel-next chain of responses reachable from a URL: the list of the
page payloads, with no next link on the last page. -/
inductive Chain {α P : Type} (fetch : String → Option P → PageResp α) :
    String → Option P → List (JsonData α) → Prop
  | last {u p} : parseNextUrl (fetch u p).linkHeader = none →
      Chain fetch u p [(fetch u p).data]
  | step {u p u2 ds} : parseNextUrl (fetch u p).linkHeader = some u2 →
      Chain fetch u2 none ds →
      Chain fetch u p ((fetch u p).data :: ds)

/-! ## Concrete inputs used by witnesses and counterexamples -/

/-- No document library installed: every extractor falls through. -/
def noLibs : Libs := ⟨fun _ => none, fun _ => none, fun _ => none⟩

/-- LLM mode, base 250 wpm (one of the slider values). -/
def cfgLLM : Config := ⟨true, 250, "Undergraduate", noLibs⟩

/-- Heuristic mode. -/
def cfgHeu : Config := ⟨false, 200, "Undergraduate", noLibs⟩

/-- A one-word assignment. -/
def itemAssignEx : Item :=
  { module_name := "M1"
    position := 1
    item_type := "Assignment"
    title := "A1"
    html_url := "https://c/a1"
    content_id := some 7
    item_key := "Assignment::7" }

/-- Its oracle: the description fetch succeeds with a one-word body and
the LLM returns 0.004 task minutes. -/
def fetchAssignEx : Fetched :=
  { assignmentDesc := .ok [Node.text "hello"]
    llmTask := .ok ⟨1/250, "quick"⟩ }

/-- A File item pointing at a downloadable attachment. -/
def itemFileEx : Item :=
  { module_name := "M1"
    position := 1
    item_type := "File"
    title := "F1"
    html_url := "https://c/f1"
    content_details := some { url := some "https://c/files/9", content_type := some "text/plain" }
    item_key := "File::9" }

/-- A Page item. -/
def itemPageEx : Item :=
  { module_name := "M1"
    position := 1
    item_type := "Page"
    title := "P1"
    html_url := "https://c/p1"
    page_url := some "p1"
    item_key := "Page::3" }

/-- An unsaved pending video. -/
def pvEx : PendingVideo := ⟨"Video", "https://v", "00:00:00", 0, "k"⟩

/-- The same pending video after saving the 90-minute duration. -/
def pvSavedEx : PendingVideo := ⟨"Video", "https://v", "01:30:00", 5400, "k"⟩

/-- A bare record owning key k, as reconciliation finds it. -/
def recWatchEx : EstimateRecord :=
  { module := "M1"
    module_position := 0
    title := "t"
    type := "Page"
    url := ""
    item_key := "k"
    read_min := 0
    watch_min := 0
    do_min := 0
    total_min := 0
    difficulty := default_difficulty }

/-- The record above after reconciliation against the saved video. -/
def recReconEx : EstimateRecord := reconcileRecord [pvSavedEx] recWatchEx

/-- An iframe pointing at a non-video site. -/
def iframeHtmlEx : Html := [Node.element "iframe" [("src", "https://example.com/x")] []]

/-- A record for the rollup example; only module, position and minutes
matter. -/
def recRollup (m : String) (p : Int) (r : ℚ) : EstimateRecord :=
  { module := m
    module_position := p
    title := "t"
    type := "Page"
    url := ""
    item_key := m
    read_min := r
    watch_min := 0
    do_min := 0
    total_min := r
    difficulty := default_difficulty }

/-- Items of three modules arriving with positions 2, 0, 1. -/
def rsRollupEx : List EstimateRecord :=
  [recRollup "M2" 2 1, recRollup "M0" 0 2, recRollup "M1" 1 4]

/-- A two-page server: the first page links to the second, the second
has no next link. -/
def fetchTwoPages : String → Option Unit → PageResp Nat := fun url _ =>
  if url == "u1" then ⟨.arr [1, 2], "<u2>; rel=\"next\""⟩ else ⟨.arr [3], ""⟩

/-! # Theorems

First the helper lemmas shared by several claim theorems, then one
theorem (plus counterexample and witness where needed) per claim. -/

/-- Decoding an empty byte string yields no characters. -/
theorem utf8_nil : utf8DecodeIgnore [] = [] := by
  rw [utf8DecodeIgnore.eq_def]

/-- Decoding an ASCII byte yields its character and continues. -/
theorem utf8_ascii (b : Nat) (hb : b < 128) (rest : List Nat) :
    utf8DecodeIgnore (b :: rest) = Char.ofNat b :: utf8DecodeIgnore rest := by
  have hstep : utf8Step b rest = (some (Char.ofNat b), rest) := by
    unfold utf8Step
    simp [hb]
  rw [utf8DecodeIgnore.eq_def]
  simp [hstep]

/-- Decoding a run of 0x61 bytes yields as many letters a. -/
theorem utf8_replicate_a (n : Nat) :
    utf8DecodeIgnore (List.replicate n 97) = List.replicate n 'a' := by
  induction n with
  | zero => simp [List.replicate, utf8_nil]
  | succ n ih =>
    rw [List.replicate_succ, List.replicate_succ, utf8_ascii 97 (by norm_num), ih]

/-- When the content type matches none of the document formats, a
successful download lands in the raw-decode fallback on the first
maxB bytes. -/
theorem extract_fallback (libs : Libs) (download : Except Unit (List Nat))
    (u ct : String) (maxB : Nat) (payload : List Nat)
    (hd : download = .ok payload)
    (hu : (u == "") = false)
    (hpdf : strContains (lowerStr ct) "pdf" = false)
    (hword : strContains (lowerStr ct) "word" = false)
    (hdocx : strContains (lowerStr ct) "docx" = false)
    (hppt : strContains (lowerStr ct) "powerpoint" = false)
    (hpptx : strContains (lowerStr ct) "pptx" = false) :
    extract_file_text libs download u ct maxB
      = .ok (String.mk (utf8DecodeIgnore (payload.take maxB)), 0) := by
  rw [extract_file_text.eq_def, hd]
  simp only [hu, hpdf, hword, hdocx, hppt, hpptx, Bool.or_self, Bool.false_eq_true, if_false]

/-- Keys produced by the first-occurrence dedup all come from the
input list. -/
theorem mem_firstKeysAux {l seen : List (String × Int)} {k : String × Int}
    (h : k ∈ firstKeysAux l seen) : k ∈ l := by
  induction l generalizing seen with
  | nil => simp [firstKeysAux] at h
  | cons a rest ih =>
    rw [firstKeysAux] at h
    by_cases ha : a ∈ seen
    · rw [if_pos ha] at h
      exact List.mem_cons_of_mem a (ih h)
    · rw [if_neg ha] at h
      rcases List.mem_cons.mp h with rfl | h2
      · exact List.mem_cons_self _ _
      · exact List.mem_cons_of_mem a (ih h2)

/-- The two-page example server forms a rel-next chain of length two. -/
theorem chainTwoPages :
    Chain fetchTwoPages "u1" none [JsonData.arr [1, 2], JsonData.arr [3]] := by
  have h1 : parseNextUrl (fetchTwoPages "u1" none).linkHeader = some "u2" := by decide
  have h2 : parseNextUrl (fetchTwoPages "u2" none).linkHeader = none := by decide
  have hd1 : (fetchTwoPages "u1" none).data = JsonData.arr [1, 2] := by decide
  have hd2 : (fetchTwoPages "u2" none).data = JsonData.arr [3] := by decide
  have hc := @Chain.step Nat Unit fetchTwoPages "u1" none "u2" _ h1 (Chain.last h2)
  rw [hd1, hd2] at hc
  exact hc

/-- Records arriving with module positions 2, 0, 1 roll up in position
order 0, 1, 2 with the Grand Total row last. -/
theorem rollup_positions_example :
    (rollup rsRollupEx).map (fun row => (row.module, row.module_position))
      = [("M0", 0), ("M1", 1), ("M2", 2), ("Grand Total", 3)] := by
  decide

/-- C1 (counterexample): the claim reads the invariant on the stored
record fields, which are rounded to two decimals.  A one-word
assignment at 250 wpm with an LLM task estimate of 0.004 minutes
produces total_min 0.01, while rounding the sum of the stored rounded
fields gives 0, so total_min does not equal
round(read_minutes + watch_minutes + do_minutes, 2) at creation. -/
theorem C1_counterexample :
    ((processItem cfgLLM itemAssignEx fetchAssignEx).map fun p => p.1.total_min) = .ok (1/100) ∧
    ((processItem cfgLLM itemAssignEx fetchAssignEx).map fun p =>
        round2 (p.1.read_min + p.1.watch_min + p.1.do_min)) = .ok 0 ∧
    (1 : ℚ) / 100 ≠ 0 := by
  have hw : words_from_text (strip_html_to_text [Node.text "hello"]) = 1 := by decide
  have hv : detect_videos_from_html [Node.text "hello"] = [] := by decide
  have hne : ("Assignment" : String) ≠ "Page" := by decide
  refine ⟨?_, ?_, by norm_num⟩ <;>
    norm_num [processItem, cfgLLM, itemAssignEx, fetchAssignEx, mkRecord, hne, hw, hv,
      embedPendings, reading_minutes, effectiveFactor, default_difficulty, round2, roundHalfEven,
      Except.map]

/-- C1 (amended): total_min is always derived from the three
components, never computed independently; at record creation it is the
rounding of the sum of the UNROUNDED component minutes, and after a
video-duration reconciliation it equals the rounding of the sum of the
three stored rounded fields. -/
theorem C1_amended :
    (∀ (it : Item) (r w d : ℚ) (diff : Difficulty),
        (mkRecord it r w d diff).total_min = round2 (r + w + d)) ∧
    (∀ (p : List PendingVideo) (rs : List EstimateRecord) (r2 : EstimateRecord),
        ¬ p.isEmpty = true → r2 ∈ reconcileResults p rs →
        r2.total_min = round2 (r2.read_min + r2.watch_min + r2.do_min)) := by
  constructor
  · intro it r w d diff
    rfl
  · intro p rs r2 hp hmem
    rw [reconcileResults, if_neg hp] at hmem
    obtain ⟨r0, hr0, rfl⟩ := List.mem_map.mp hmem
    rfl

/-- C1 (witness): both parts of the amended claim hold at concrete
inputs. -/
theorem C1_amended_witness :
    (mkRecord itemAssignEx 1 2 3 default_difficulty).total_min = round2 (1 + 2 + 3) ∧
    ¬ ([pvSavedEx] : List PendingVideo).isEmpty = true ∧
    recReconEx ∈ reconcileResults [pvSavedEx] [recWatchEx] ∧
    recReconEx.total_min = round2 (recReconEx.read_min + recReconEx.watch_min + recReconEx.do_min) := by
  have hne : ¬ ([pvSavedEx] : List PendingVideo).isEmpty = true := by decide
  have hmem : recReconEx ∈ reconcileResults [pvSavedEx] [recWatchEx] := by
    simp [reconcileResults, recReconEx]
  exact ⟨C1_amended.1 itemAssignEx 1 2 3 default_difficulty, hne, hmem,
    C1_amended.2 [pvSavedEx] [recWatchEx] recReconEx hne hmem⟩

/-- C2 (counterexample): at the claim-provided point (450 words, base
225 wpm, default difficulty) the code computes exactly 2.0 reading
minutes, not the 2.15 predicted by the claimed formula with its 0.15
re-read factor at score 0.5; the source has no re-read multiplier. -/
theorem C2_counterexample :
    reading_minutes 450 225 default_difficulty = 2 ∧
    reading_minutes 450 225 default_difficulty ≠ 450 / 225 * (1 + (3/20) * (1/2)) := by
  constructor <;> norm_num [reading_minutes, effectiveFactor, default_difficulty]

/-- C2 (amended): for a present non-zero adjustment factor f the
reading minutes equal words divided by max(80, base x f), with no
re-read multiplier.  The 80 wpm floor is the minFloor of the spec. -/
theorem C2_amended (words : Nat) (b f : ℚ) (d : Difficulty)
    (hf : d.wpm_factor = some f) (h0 : f ≠ 0) :
    reading_minutes words b d = (words : ℚ) / max 80 (b * f) := by
  unfold reading_minutes effectiveFactor
  rw [hf]
  simp [h0]

/-- C2 (witness): the amended formula evaluated at the 450-word
example. -/
theorem C2_amended_witness :
    default_difficulty.wpm_factor = some 1 ∧ (1 : ℚ) ≠ 0 ∧
    reading_minutes 450 225 default_difficulty = 450 / max 80 (225 * 1) :=
  ⟨rfl, by norm_num, C2_amended 450 225 1 default_difficulty rfl (by norm_num)⟩

/-- C3 (counterexample): a plain-text payload one byte over the 25 MB
cap is truncated to its first 25 MB and decoded, so extraction returns
a non-empty text, not the claimed ("", 0). -/
theorem C3_counterexample :
    extract_file_text noLibs (.ok (List.replicate (MAX_FILE_BYTES + 1) 97))
        "https://c/files/9" "text/plain" MAX_FILE_BYTES
      = .ok (String.mk (List.replicate MAX_FILE_BYTES 'a'), 0) ∧
    String.mk (List.replicate MAX_FILE_BYTES 'a') ≠ "" := by
  have h2 : List.take MAX_FILE_BYTES (List.replicate (MAX_FILE_BYTES + 1) 97)
      = List.replicate MAX_FILE_BYTES 97 := by
    rw [List.take_replicate]
    congr 1
  constructor
  · rw [extract_fallback noLibs _ _ _ _ _ rfl (by decide) (by decide) (by decide) (by decide)
      (by decide) (by decide)]
    rw [h2]
    rw [utf8_replicate_a]
  · intro h
    have h0 : List.replicate MAX_FILE_BYTES 'a' = ([] : List Char) := congrArg String.data h
    have hlen : MAX_FILE_BYTES = 0 := by simpa using congrArg List.length h0
    exact absurd hlen (by norm_num [MAX_FILE_BYTES])

/-- C3 (amended): extraction processes exactly the first maxBytes bytes
of a downloaded payload — the result only depends on that truncated
prefix; there is no all-or-nothing abort for oversized payloads. -/
theorem C3_amended (libs : Libs) (payload : List Nat) (u ct : String) (maxB : Nat) :
    extract_file_text libs (.ok payload) u ct maxB
      = extract_file_text libs (.ok (payload.take maxB)) u ct maxB := by
  rw [extract_file_text.eq_def, extract_file_text.eq_def]
  simp [List.take_take]

/-- C4 (counterexample): a single File item whose download fails aborts
the whole processing pass, because the source does not wrap the file
branch in a try/except. -/
theorem C4_counterexample :
    (processItems cfgHeu [(itemFileEx, {})]).isOk = false ∧ itemFileEx.item_type = "File" := by
  constructor
  · decide
  · decide

/-- C4 (amended): for every item type other than File, an upstream
failure is caught per item and processing yields a record; for Page,
Assignment and Discussion a failed body fetch degrades the item to zero
read and do minutes (a caught Quiz failure keeps the heuristic
estimate instead).  File items are the exception: their download
failure aborts the pass, as the counterexample shows. -/
theorem C4_amended (cfg : Config) (it : Item) (f : Fetched) (hnf : it.item_type ≠ "File") :
    (processItem cfg it f).isOk = true ∧
    ∀ r pv, processItem cfg it f = .ok (r, pv) → fetchFailed it f →
      r.read_min = 0 ∧ r.do_min = 0 := by
  have hw0 : words_from_text (strip_html_to_text []) = 0 := by decide
  have hr0 : round2 0 = 0 := by norm_num [round2, roundHalfEven]
  unfold processItem
  by_cases h1 : it.item_type = "Page"
  · rw [if_pos (Or.inl h1), if_pos h1]
    cases hfp : f.pageBody with
    | error e =>
      refine ⟨by simp [Except.isOk, Except.toBool], ?_⟩
      intro r pv heq hff
      dsimp only at heq
      injection heq with hA
      injection hA with hA1 hA2
      subst hA1
      simp [mkRecord, hw0, hr0]
    | ok b =>
      refine ⟨by simp [Except.isOk, Except.toBool], ?_⟩
      intro r pv heq hff
      rcases hff with ⟨_, herr⟩ | ⟨habs, _⟩ | ⟨habs, _⟩
      · rw [hfp] at herr
        simp at herr
      · rw [h1] at habs
        simp at habs
      · rw [h1] at habs
        simp at habs
  · by_cases h2 : it.item_type = "Assignment"
    · rw [if_pos (Or.inr (Or.inl h2)), if_neg h1, if_pos h2]
      cases hfp : f.assignmentDesc with
      | error e =>
        refine ⟨by simp [Except.isOk, Except.toBool], ?_⟩
        intro r pv heq hff
        dsimp only at heq
        injection heq with hA
        injection hA with hA1 hA2
        subst hA1
        simp [mkRecord, hw0, hr0]
      | ok b =>
        refine ⟨by simp [Except.isOk, Except.toBool], ?_⟩
        intro r pv heq hff
        rcases hff with ⟨habs, _⟩ | ⟨_, herr⟩ | ⟨habs, _⟩
        · rw [h2] at habs
          simp at habs
        · rw [hfp] at herr
          simp at herr
        · rw [h2] at habs
          simp at habs
    · by_cases h3 : it.item_type = "Discussion"
      · rw [if_pos (Or.inr (Or.inr h3)), if_neg h1, if_neg h2]
        cases hfp : f.discussionMsg with
        | error e =>
          refine ⟨by simp [Except.isOk, Except.toBool], ?_⟩
          intro r pv heq hff
          dsimp only at heq
          injection heq with hA
          injection hA with hA1 hA2
          subst hA1
          simp [mkRecord, hw0, hr0]
        | ok b =>
          refine ⟨by simp [Except.isOk, Except.toBool], ?_⟩
          intro r pv heq hff
          rcases hff with ⟨habs, _⟩ | ⟨habs, _⟩ | ⟨_, herr⟩
          · rw [h3] at habs
            simp at habs
          · rw [h3] at habs
            simp at habs
          · rw [hfp] at herr
            simp at herr
      · rw [if_neg (by tauto), if_neg hnf]
        by_cases h4 : it.item_type = "Quiz"
        · rw [if_pos h4]
          refine ⟨by simp [Except.isOk, Except.toBool], ?_⟩
          intro r pv heq hff
          rcases hff with ⟨hp, _⟩ | ⟨hp, _⟩ | ⟨hp, _⟩
          · exact absurd hp h1
          · exact absurd hp h2
          · exact absurd hp h3
        · rw [if_neg h4]
          refine ⟨by simp [Except.isOk, Except.toBool], ?_⟩
          intro r pv heq hff
          rcases hff with ⟨hp, _⟩ | ⟨hp, _⟩ | ⟨hp, _⟩
          · exact absurd hp h1
          · exact absurd hp h2
          · exact absurd hp h3

/-- C4 (witness): a Page item whose every fetch fails still processes
and degrades to zero read and do minutes. -/
theorem C4_amended_witness :
    itemPageEx.item_type ≠ "File" ∧
    ((processItem cfgHeu itemPageEx {}).isOk = true ∧
     ∀ r pv, processItem cfgHeu itemPageEx {} = .ok (r, pv) → fetchFailed itemPageEx {} →
       r.read_min = 0 ∧ r.do_min = 0) :=
  ⟨by decide, C4_amended cfgHeu itemPageEx {} (by decide)⟩

/-- C5: on any rel-next chain of N responses whose last page carries no
next link, canvas_get performs exactly N requests and returns the
pages' payloads concatenated in order, for every sufficient fuel
bound (the fuel only makes the model total; the source loops until the
next link disappears). -/
theorem C5_pagination {α P : Type} (fetch : String → Option P → PageResp α)
    {u : String} {p : Option P} {ds : List (JsonData α)}
    (h : Chain fetch u p ds) (fuel : Nat) (hf : ds.length ≤ fuel) :
    canvas_get fetch fuel u p = ((ds.map JsonData.toList).flatten, ds.length) := by
  induction h generalizing fuel with
  | last hnone =>
    cases fuel with
    | zero => simp at hf
    | succ n =>
      rw [canvas_get]
      rw [hnone]
      simp
  | step hnext hch ih =>
    cases fuel with
    | zero => simp at hf
    | succ n =>
      rw [canvas_get]
      rw [hnext]
      dsimp only
      rw [ih n (by simpa using hf)]
      simp [Nat.add_comm]

/-- C5 (witness): the two-page server yields both pages in order with
exactly two requests. -/
theorem C5_pagination_witness :
    canvas_get fetchTwoPages 2 "u1" none = ([1, 2, 3], 2) := by
  rw [C5_pagination fetchTwoPages chainTwoPages 2 (by decide)]
  decide

/-- C6: when each module name carries one position (as in a course
scan), the rollup ends with the Grand Total row, the module rows before
it are sorted ascending by position, and each row carries the minimum
(indeed, the common) position of its module items. -/
theorem C6_rollup_order (rs : List EstimateRecord)
    (hdet : ∀ r ∈ rs, ∀ r2 ∈ rs, r.module = r2.module → r.module_position = r2.module_position) :
    (rollup rs).getLast? = some (grandTotalRow (mod_summary rs)) ∧
    (grandTotalRow (mod_summary rs)).module = "Grand Total" ∧
    List.Sorted rowLE (mod_summary rs) ∧
    ∀ row ∈ mod_summary rs,
      (∃ r ∈ rs, r.module = row.module ∧ row.module_position = r.module_position) ∧
      ∀ r2 ∈ rs, r2.module = row.module → row.module_position ≤ r2.module_position := by
  refine ⟨?_, rfl, List.sorted_insertionSort rowLE _, ?_⟩
  · rw [rollup]
    exact List.getLast?_concat _
  · intro row hrow
    have hmem : row ∈ (groupKeys rs).map (groupRow rs) :=
      (List.perm_insertionSort rowLE _).mem_iff.mp hrow
    obtain ⟨k, hk, rfl⟩ := List.mem_map.mp hmem
    have hkl : k ∈ rs.map fun r => (r.module, r.module_position) := mem_firstKeysAux hk
    obtain ⟨r, hr, hkr⟩ := List.mem_map.mp hkl
    constructor
    · refine ⟨r, hr, ?_, ?_⟩
      · show r.module = k.1
        rw [← hkr]
      · show k.2 = r.module_position
        rw [← hkr]
    · intro r2 hr2 hmod
      have hmm : r2.module = r.module := by
        have hgm : (groupRow rs k).module = k.1 := rfl
        rw [hgm, ← hkr] at hmod
        exact hmod
      have hpos := hdet r2 hr2 r hr hmm
      show k.2 ≤ r2.module_position
      rw [← hkr]
      exact le_of_eq hpos.symm

/-- C6 (witness): the rollup guarantees instantiated on records with
input positions 2, 0, 1. -/
theorem C6_rollup_order_witness :
    (rollup rsRollupEx).getLast? = some (grandTotalRow (mod_summary rsRollupEx)) ∧
    (grandTotalRow (mod_summary rsRollupEx)).module = "Grand Total" ∧
    List.Sorted rowLE (mod_summary rsRollupEx) ∧
    ∀ row ∈ mod_summary rsRollupEx,
      (∃ r ∈ rsRollupEx, r.module = row.module ∧ row.module_position = r.module_position) ∧
      ∀ r2 ∈ rsRollupEx, r2.module = row.module → row.module_position ≤ r2.module_position :=
  C6_rollup_order rsRollupEx (by decide)

/-- C7: the duration parser maps 01:30:00 to 5400 seconds (90 minutes
of watch time after reconciliation), maps 00:00:00 and the malformed
1:2 to 0, and the save step rejects exactly those non-positive
results. -/
theorem C7_duration_values :
    hhmmss_to_seconds "01:30:00" = 5400 ∧
    hhmmss_to_seconds "00:00:00" = 0 ∧
    hhmmss_to_seconds "1:2" = 0 ∧
    saveVideoDuration "00:00:00" pvEx = none ∧
    saveVideoDuration "1:2" pvEx = none ∧
    saveVideoDuration "01:30:00" pvEx = some pvSavedEx ∧
    (reconcileRecord [pvSavedEx] recWatchEx).watch_min = 90 := by
  refine ⟨by decide, by decide, by decide, by decide, by decide, by decide, ?_⟩
  have h : itemSeconds [pvSavedEx] recWatchEx.item_key = 5400 := by decide
  simp only [reconcileRecord, h]
  norm_num [round2, roundHalfEven]

/-- C8: one rendering pass (reconcile the saved durations, then roll
up) is idempotent — running it again on its own output state changes
neither the rollup table nor the records; the computation keeps no
hidden running state. -/
theorem C8_idempotent (pending : List PendingVideo) (results : List EstimateRecord) :
    summaryStep pending (summaryStep pending results).2 = summaryStep pending results := by
  have hrec : ∀ r, reconcileRecord pending (reconcileRecord pending r) = reconcileRecord pending r := by
    intro r
    cases r
    rfl
  have hres : reconcileResults pending (reconcileResults pending results)
      = reconcileResults pending results := by
    unfold reconcileResults
    by_cases hp : pending.isEmpty
    · simp [hp]
    · simp only [hp, Bool.false_eq_true, if_false]
      rw [List.map_map]
      exact List.map_congr_left fun r _ => hrec r
  show (rollup (reconcileResults pending (reconcileResults pending results)),
      reconcileResults pending (reconcileResults pending results)) = _
  rw [hres]
  rfl

/-- C9 (counterexample): an iframe whose src contains no video-hosting
domain substring still produces a detection, refuting the claim that
detections happen exactly when a known domain substring occurs. -/
theorem C9_counterexample :
    detect_videos_from_html iframeHtmlEx
      = [Video.mk "https://example.com/x" "Embedded Video"] ∧
    (∀ dom ∈ videoDomains, strContains "https://example.com/x" dom = false) := by
  constructor
  · decide
  · decide

/-- C9 (amended): a detection is reported exactly for the
iframe/video/embed tags with any non-empty src or data-src (no domain
check), and for the hyperlinks whose href contains one of the fixed
video-domain substrings; no other node produces a detection. -/
theorem C9_amended (h : Html) (v : Video) :
    v ∈ detect_videos_from_html h ↔ ∃ n ∈ allNodesL h, isEmbedHit n v ∨ isLinkHit n v := by
  rw [detect_videos_from_html]
  by_cases hE : h.isEmpty
  · rw [if_pos hE]
    rw [List.isEmpty_iff] at hE
    subst hE
    simp [allNodesL]
  · rw [if_neg hE]
    simp only [List.mem_append, List.mem_filterMap, findAllHtml, List.mem_filter]
    constructor
    · rintro (⟨n, ⟨hn, hemb⟩, hsome⟩ | ⟨n, ⟨hn, hanch⟩, hsome⟩)
      · by_cases hsrc : (effSrc n == "") = true
        · rw [if_pos hsrc] at hsome
          exact absurd hsome (by simp)
        · rw [if_neg hsrc] at hsome
          rw [Option.some.injEq] at hsome
          refine ⟨n, hn, Or.inl ⟨hemb, by simpa using hsrc, hsome.symm⟩⟩
      · cases hhref : attr? n "href" with
        | none =>
          rw [hhref] at hsome
          simp at hsome
        | some href =>
          rw [hhref] at hsome
          dsimp only at hsome
          by_cases hdom : (videoDomains.any fun dom => strContains href dom) = true
          · rw [if_pos hdom] at hsome
            rw [Option.some.injEq] at hsome
            have htag : tagOf n = some "a" := by
              simp [isHrefAnchor] at hanch
              exact hanch.1
            exact ⟨n, hn, Or.inr ⟨href, htag, hhref, hdom, hsome.symm⟩⟩
          · rw [if_neg hdom] at hsome
            simp at hsome
    · rintro ⟨n, hn, hhit | hhit⟩
      · obtain ⟨hemb, hsrc, rfl⟩ := hhit
        left
        refine ⟨n, ⟨hn, hemb⟩, ?_⟩
        rw [if_neg (by simpa using hsrc)]
      · obtain ⟨href, htag, hhref, hdom, rfl⟩ := hhit
        right
        refine ⟨n, ⟨hn, ?_⟩, ?_⟩
        · simp [isHrefAnchor, htag, hhref]
        · rw [hhref]
          dsimp only
          rw [if_pos hdom]

/-- C10: the duration parser returns a non-negative count of seconds on
every input (the total is clamped at zero, so negative components such
as 00:-05:00 cannot produce a negative result); as a total function of
its string argument, the embedding also witnesses that the source never
raises. -/
theorem C10_duration_parse_safe :
    (∀ s : String, 0 ≤ hhmmss_to_seconds s) ∧ hhmmss_to_seconds "00:-05:00" = 0 := by
  constructor
  · intro s
    simp only [hhmmss_to_seconds]
    split
    · split
      · exact le_max_left 0 _
      · exact le_refl 0
    · exact le_refl 0
  · decide

end CourseLoad
